import Mathlib

/-!
Verification of the corpus-normalizer pipeline of the youtube-comments-analysis
repository (scripts/data_preparation.py and src/youtube_analysis/cleanutils.py).

The per-row text pipeline is embedded shallowly: each Python function becomes a
Lean function over `String` (logically a `List Char`).  External library calls
are modelled as follows, with the modelling choice recorded at each definition:
  * `nltk.word_tokenize` is modelled, following the spec (section 4.1 stage 2),
    as splitting into whitespace-delimited units;
  * `BeautifulSoup(text, "html.parser").get_text()` is modelled from the spec
    (section 4.1 stage 1) as stripping well-formed tag spans and passing
    unterminated markup through as literal text;
  * the static lookup tables (emot's `UNICODE_EMOJI` and `EMOTICONS_EMO`,
    nltk's English stopword list) appear as explicit association-list
    parameters, with concrete fragments of the real tables used for
    evaluation;
  * the WordNet lemmatizer and the VADER compound score are abstract function
    parameters (`lemma : String → String`, `compound : String → ℚ`); Python
    floats are modelled as rationals.
-/

namespace DataPreparation

/-- Boolean test that `pat` is a prefix of `l` (character lists). -/
def listStartsWith : List Char → List Char → Bool
  | [], _ => true
  | _ :: _, [] => false
  | p :: ps, c :: cs => p == c && listStartsWith ps cs

/-- Boolean test that `pat` occurs as a contiguous substring of `l`;
models Python's `pat in s` for strings. -/
def listHasSub (pat : List Char) : List Char → Bool
  | [] => listStartsWith pat []
  | c :: rest => listStartsWith pat (c :: rest) || listHasSub pat rest

/-- Models the Python substring test `pat in s`. -/
def strContainsSub (s pat : String) : Bool :=
  listHasSub pat.data s.data

/-- Worker for `strReplace`: scans left to right; `skip` counts characters
still to be consumed by the most recent match.  On a match at the current
position the replacement is emitted and the matched span is skipped, so
occurrences are replaced non-overlapping and left to right, exactly as
Python's `str.replace`. -/
def replaceAux (pat rep : List Char) : List Char → Nat → List Char
  | [], _ => []
  | _ :: rest, skip + 1 => replaceAux pat rep rest skip
  | c :: rest, 0 =>
    if listStartsWith pat (c :: rest) && !pat.isEmpty then
      rep ++ replaceAux pat rep rest (pat.length - 1)
    else
      c :: replaceAux pat rep rest 0

/-- Models Python's `s.replace(pat, rep)`: every non-overlapping occurrence of
`pat`, found left to right, is replaced by `rep`.  An empty `pat` is treated
as matching nowhere; the static tables used by the source contain no empty
keys, so this case is never exercised. -/
def strReplace (s pat rep : String) : String :=
  ⟨replaceAux pat.data rep.data s.data 0⟩

/-- Worker for `word_tokenize`: splits on whitespace, accumulating the current
token in reverse. -/
def wsTokensAux : List Char → List Char → List String
  | [], acc => if acc.isEmpty then [] else [⟨acc.reverse⟩]
  | c :: rest, acc =>
    if c.isWhitespace then
      (if acc.isEmpty then [] else [⟨acc.reverse⟩]) ++ wsTokensAux rest []
    else
      wsTokensAux rest (c :: acc)

/-- Modelled from the spec: the source calls `nltk.word_tokenize`, an external
library function; the spec (section 4.1 stage 2) describes the tokenization as
splitting the text into whitespace-delimited units. -/
def word_tokenize (text : String) : List String :=
  wsTokensAux text.data []

/-- Models Python's `" ".join(tokens)`. -/
def joinSpace : List String → String
  | [] => ""
  | [t] => t
  | t :: ts => t ++ " " ++ joinSpace ts

/-- Worker for `remove_html_tags`: the second argument holds, in reverse, the
characters of a markup tag currently being read (empty when outside a tag).
A tag span `<...>` is dropped; if the input ends inside an unterminated tag,
its characters are emitted literally. -/
def stripMarkupAux : List Char → List Char → List Char
  | [], pend => pend.reverse
  | c :: rest, [] =>
    if c = '<' then stripMarkupAux rest [c] else c :: stripMarkupAux rest []
  | c :: rest, p :: ps =>
    if c = '>' then stripMarkupAux rest [] else stripMarkupAux rest (c :: p :: ps)

/-- Modelled from the spec: the source's `remove_html_tags` delegates entirely
to `BeautifulSoup(text, "html.parser").get_text()` (external library).  Per
section 4.1 stage 1 of the spec, markup tags are stripped and any unparseable
fragment is treated as literal text. -/
def remove_html_tags (text : String) : String :=
  ⟨stripMarkupAux text.data []⟩

/-- Fragment, in the library's iteration order, of the emot package's static
`UNICODE_EMOJI` glyph-to-name table imported by the source. -/
def UNICODE_EMOJI : List (String × String) :=
  [("😀", ":grinning_face:"),
   ("😂", ":face_with_tears_of_joy:"),
   ("😊", ":smiling_face_with_smiling_eyes:")]

/-- Fragment, in the library's iteration order, of the emot package's static
`EMOTICONS_EMO` emoticon-to-phrase table imported by the source.  Note that
the two-character and three-character smileys precede the longer
`:‑))` entry in the library's dict. -/
def EMOTICONS_EMO : List (String × String) :=
  [(":‑)", "Happy face or smiley"),
   (":)", "Happy face or smiley"),
   (":‑))", "Very happy or double chin"),
   (":(", "Frown, sad, angry or pouting")]

/-- Fragment of nltk's English stopword list used by `filter_stopwords`. -/
def english_stopwords : List String :=
  ["i", "me", "my", "a", "an", "the", "and", "is", "it", "was", "of", "to", "in"]

/-- The name transformation applied by `translate_emojis` to a table value:
`UNICODE_EMOJI[emo].replace(":", "").replace("_", " ")`. -/
def canonicalEmojiName (v : String) : String :=
  strReplace (strReplace v ":" "") "_" " "

/-- Replaces the first list element equal to `emo` by `nm`; models the
source's `tokenized_text.index(emo)` followed by assignment at that index
(guarded by `emo in tokenized_text`, so a missing `emo` leaves the list
unchanged, as here). -/
def replaceFirstToken (emo nm : String) : List String → List String
  | [] => []
  | t :: ts => if t = emo then nm :: ts else t :: replaceFirstToken emo nm ts

/-- Embeds `translate_emojis` (data_preparation.py lines 77 to 86): tokenize,
then for each table entry in iteration order replace the first token equal to
the glyph by the transformed name, and re-join with single spaces. -/
def translate_emojis (tbl : List (String × String)) (text : String) : String :=
  joinSpace (tbl.foldl
    (fun toks p => replaceFirstToken p.1 (canonicalEmojiName p.2) toks)
    (word_tokenize text))

/-- Embeds `translate_emoticons` (data_preparation.py lines 89 to 95): for
each table entry in iteration order, if the emoticon occurs in the current
text, replace all its occurrences by the phrase. -/
def translate_emoticons (tbl : List (String × String)) (text : String) : String :=
  tbl.foldl
    (fun cur p => if strContainsSub cur p.1 then strReplace cur p.1 p.2 else cur)
    text

/-- Embeds `filter_text_noise` (data_preparation.py lines 98 to 104): for each
character of the original text, if it is not alphabetic, replace all its
occurrences in the accumulated text by a space.  Python's Unicode `isalpha` is
modelled by `Char.isAlpha` (ASCII letters); the inputs considered here contain
no non-ASCII letters. -/
def filter_text_noise (text : String) : String :=
  ⟨text.data.foldl
    (fun cur e => if e.isAlpha then cur else cur.map (fun c => if c = e then ' ' else c))
    text.data⟩

/-- Models `pandas.Series.str.lower` (Python `str.lower`) on the ASCII range,
as applied at data_preparation.py line 227. -/
def str_lower (s : String) : String :=
  ⟨s.data.map Char.toLower⟩

/-- Embeds `filter_stopwords` (data_preparation.py lines 108 to 116):
tokenize, keep the tokens not in the stopword set, re-join with single
spaces. -/
def filter_stopwords (stop : List String) (text : String) : String :=
  joinSpace ((word_tokenize text).filter (fun t => !stop.contains t))

/-- Embeds `lemmatize_text` (data_preparation.py lines 119 to 123) with the
WordNet lemmatizer abstracted as `lem`: tokenize, lemmatize each token,
re-join with single spaces. -/
def lemmatize_text (lem : String → String) (text : String) : String :=
  joinSpace ((word_tokenize text).map lem)

/-- Embeds `get_sent_label` (data_preparation.py lines 126 to 155) with the
VADER compound score abstracted as `compound`.  Python's `if not score:`
treats both `None` and a (falsy) zero score as absent, recomputing the score
from the text; the threshold chain is then `0.4 < score`, `-0.1 < score <=
0.4`, else negative. -/
def get_sent_label (compound : String → ℚ) (text : String) (score : Option ℚ) : String :=
  let s : ℚ :=
    match score with
    | none => compound text
    | some v => if v = 0 then compound text else v
  if (0.4 : ℚ) < s then "positive"
  else if (-0.1 : ℚ) < s ∧ s ≤ (0.4 : ℚ) then "neutral"
  else "negative"

/-- Embeds `get_sent_score` (data_preparation.py lines 158 to 179): the VADER
compound score of the text, with the analyzer abstracted as `compound`. -/
def get_sent_score (compound : String → ℚ) (text : String) : ℚ :=
  compound text

/-- Embeds `has_emojis` (data_preparation.py lines 182 to 188): 1 if some
table glyph occurs as a whole token of the text, else 0. -/
def has_emojis (tbl : List (String × String)) (text : String) : Nat :=
  if tbl.any (fun p => (word_tokenize text).contains p.1) then 1 else 0

/-- Embeds `has_emoticons` (data_preparation.py lines 191 to 197): 1 if some
table emoticon occurs as a substring of the text, else 0. -/
def has_emoticons (tbl : List (String × String)) (text : String) : Nat :=
  if tbl.any (fun p => strContainsSub text p.1) then 1 else 0

/-- The derived columns appended to a row by `main`
(data_preparation.py lines 221 to 233). -/
structure AnnotatedRow where
  cleaned_text : String
  filtered_text : String
  lemmatized_text : String
  has_emojis : Nat
  has_emoticons : Nat
  sent_class : String
  sent_score : ℚ

/-- Embeds the per-row computation of `main` (data_preparation.py lines 223 to
233): the cleaning chain producing `cleaned_text`, then `filtered_text`,
`lemmatized_text`, the presence flags computed from the original text, and the
sentiment fields computed from `cleaned_text`. -/
def main_row (emojiTbl emoticonTbl : List (String × String)) (stop : List String)
    (lem : String → String) (compound : String → ℚ) (text : String) : AnnotatedRow :=
  let c1 := remove_html_tags text
  let c2 := translate_emojis emojiTbl c1
  let c3 := translate_emoticons emoticonTbl c2
  let c4 := filter_text_noise c3
  let cleaned := str_lower c4
  let filtered := filter_stopwords stop cleaned
  let lemmatized := lemmatize_text lem filtered
  { cleaned_text := cleaned
    filtered_text := filtered
    lemmatized_text := lemmatized
    has_emojis := has_emojis emojiTbl text
    has_emoticons := has_emoticons emoticonTbl text
    sent_class := get_sent_label compound cleaned none
    sent_score := get_sent_score compound cleaned }

/-- First-match association lookup in an emoji table. -/
def tableLookup : List (String × String) → String → Option String
  | [], _ => none
  | p :: ps, t => if p.1 = t then some p.2 else tableLookup ps t

/-- The per-token substitution the spec describes for stage 2: a token equal
to a known glyph becomes that emoji's canonical name, any other token is kept. -/
def emojiLookupName (tbl : List (String × String)) (t : String) : String :=
  match tableLookup tbl t with
  | some v => canonicalEmojiName v
  | none => t

/-- Follows the spec's words for stage 2 (the claim under test, not the
source): every whitespace-delimited token that exactly equals a known emoji
glyph is replaced by that emoji's canonical name. -/
def spec_translate_emojis (tbl : List (String × String)) (text : String) : String :=
  joinSpace ((word_tokenize text).map (emojiLookupName tbl))

/-- Inserts an entry into a list sorted by weakly decreasing key length. -/
def insertByKeyLen (p : String × String) : List (String × String) → List (String × String)
  | [] => [p]
  | q :: qs => if q.1.length ≤ p.1.length then p :: q :: qs else q :: insertByKeyLen p qs

/-- Sorts a table by weakly decreasing key length (insertion sort). -/
def sortByKeyLenDesc : List (String × String) → List (String × String)
  | [] => []
  | p :: ps => insertByKeyLen p (sortByKeyLenDesc ps)

/-- Follows the spec's words for stage 3 (the claim under test, not the
source): emoticon entries are replaced with longer table entries matched
before shorter ones. -/
def spec_translate_emoticons (tbl : List (String × String)) (text : String) : String :=
  translate_emoticons (sortByKeyLenDesc tbl) text

/-- The character-level effect of `filter_text_noise` restricted to a scanned
character list `l`: a non-alphabetic character occurring in `l` becomes a
space, every other character is kept. -/
def noiseChar (l : List Char) (c : Char) : Char :=
  if c.isAlpha then c else if l.contains c then ' ' else c

/-- The threshold chain of `get_sent_label` once the score to classify is
known, written out without lets for rewriting. -/
theorem get_sent_label_none_eq (compound : String → ℚ) (text : String) :
    get_sent_label compound text none =
      if (0.4 : ℚ) < compound text then "positive"
      else if (-0.1 : ℚ) < compound text ∧ compound text ≤ (0.4 : ℚ) then "neutral"
      else "negative" := rfl

/-- Unfolding of `get_sent_label` on an explicitly supplied score: a zero
score is falsy in Python and triggers recomputation from the text. -/
theorem get_sent_label_some_eq (compound : String → ℚ) (text : String) (s : ℚ) :
    get_sent_label compound text (some s) =
      if (0.4 : ℚ) < (if s = 0 then compound text else s) then "positive"
      else if (-0.1 : ℚ) < (if s = 0 then compound text else s) ∧
          (if s = 0 then compound text else s) ≤ (0.4 : ℚ) then "neutral"
      else "negative" := rfl

/-- C1: for every text, `get_sent_label` (with no supplied score) classifies
the compound sentiment score of the text by the thresholds: a score strictly
greater than 0.4 yields positive; a score strictly greater than -0.1 and at
most 0.4 yields neutral (so a score of exactly 0.4 is neutral); a score at
most -0.1 yields negative (so a score of exactly -0.1 is negative). -/
theorem c1_sent_label_thresholds (compound : String → ℚ) (text : String) :
    ((0.4 : ℚ) < compound text → get_sent_label compound text none = "positive") ∧
    ((-0.1 : ℚ) < compound text ∧ compound text ≤ (0.4 : ℚ) →
      get_sent_label compound text none = "neutral") ∧
    (compound text ≤ (-0.1 : ℚ) → get_sent_label compound text none = "negative") := by
  refine ⟨fun h => ?_, fun h => ?_, fun h => ?_⟩ <;> rw [get_sent_label_none_eq]
  · rw [if_pos h]
  · rw [if_neg (not_lt.mpr h.2), if_pos h]
  · rw [if_neg (not_lt.mpr (by linarith)), if_neg (fun hc => absurd hc.1 (by linarith))]

/-- Witness for C1: the thresholds evaluated at the concrete scores 1/2
(positive), 2/5 = 0.4 (the neutral boundary) and -1/10 = -0.1 (the negative
boundary). -/
theorem c1_sent_label_thresholds_check :
    get_sent_label (fun _ => 1/2) "" none = "positive" ∧
    get_sent_label (fun _ => 2/5) "" none = "neutral" ∧
    get_sent_label (fun _ => -(1/10)) "" none = "negative" :=
  ⟨(c1_sent_label_thresholds (fun _ => 1/2) "").1 (by norm_num),
   (c1_sent_label_thresholds (fun _ => 2/5) "").2.1 (by norm_num),
   (c1_sent_label_thresholds (fun _ => -(1/10)) "").2.2 (by norm_num)⟩

/-- C4: supplying a score of exactly 0.0 is the same as supplying no score at
all; in both cases `get_sent_label` recomputes the compound score from the
text, because Python's `if not score:` treats 0.0 as absent. -/
theorem c4_zero_score_recomputes (compound : String → ℚ) (text : String) :
    get_sent_label compound text (some 0) = get_sent_label compound text none := by
  rw [get_sent_label_some_eq, get_sent_label_none_eq, if_pos rfl]

/-- C10: when a nonzero score is supplied, the label depends only on the
score: any two texts (and even any two analyzer behaviours) with the same
nonzero supplied score get the same label. -/
theorem c10_supplied_score_determines_label (t1 t2 : String)
    (f g : String → ℚ) (s : ℚ) (hs : s ≠ 0) :
    get_sent_label f t1 (some s) = get_sent_label g t2 (some s) := by
  rw [get_sent_label_some_eq, get_sent_label_some_eq, if_neg hs, if_neg hs]

/-- Witness for C10: two different texts and two different analyzers with the
same supplied score 1/2 agree on the label. -/
theorem c10_supplied_score_determines_label_check :
    get_sent_label (fun _ => 0) "good" (some (1/2)) =
      get_sent_label (fun _ => 1) "bad" (some (1/2)) :=
  c10_supplied_score_determines_label "good" "bad" (fun _ => 0) (fun _ => 1)
    (1/2) (by norm_num)

/-- C9: swapping noise filtering (stage 4) and stopword removal (stage 6)
changes the output on the spec's own example input with digits adjacent to a
stopword: the mandated order gives "cat" while the swapped order gives
"    cat". -/
theorem c9_order_sensitivity :
    filter_stopwords english_stopwords (str_lower (filter_text_noise "the 123 cat")) ≠
      filter_text_noise (str_lower (filter_stopwords english_stopwords "the 123 cat")) := by
  decide

/-- Counterexample to C2 as stated: with the table entry for 😂 (an entry of
emot's `UNICODE_EMOJI`), the input "😂 😂" has two whitespace-delimited
tokens equal to the glyph, but `translate_emojis` replaces only the first
(the source replaces the token at `tokenized_text.index(emo)` only), while
the claim demands every matching token be replaced. -/
theorem c2_counterexample :
    translate_emojis UNICODE_EMOJI "😂 😂" ≠
      spec_translate_emojis UNICODE_EMOJI "😂 😂" := by
  decide

/-- Counterexample to C3 as stated: in emot's table order the short smiley
precedes the longer `:‑))` entry which contains it, so on the input ":‑))"
the source replaces the short entry first, corrupting the longer match; the
claimed longest-match-first behaviour would replace ":‑))" whole. -/
theorem c3_counterexample :
    translate_emoticons EMOTICONS_EMO ":‑))" ≠
      spec_translate_emoticons EMOTICONS_EMO ":‑))" := by
  decide

/-- C7: both presence flags are computed from the original text, not from any
derived field: for every input, the row's `has_emojis` column equals
`has_emojis` applied to the original text and the row's `has_emoticons`
column equals `has_emoticons` applied to the original text (for every
lemmatizer and analyzer); in particular, on the input "Great video! :)" the
`has_emoticons` column is 1 even though `cleaned_text` no longer contains
":)" after noise filtering. -/
theorem c7_presence_flags_from_original (lem : String → String) (compound : String → ℚ) :
    (∀ text : String,
      (main_row UNICODE_EMOJI EMOTICONS_EMO english_stopwords lem compound
        text).has_emojis = has_emojis UNICODE_EMOJI text) ∧
    (∀ text : String,
      (main_row UNICODE_EMOJI EMOTICONS_EMO english_stopwords lem compound
        text).has_emoticons = has_emoticons EMOTICONS_EMO text) ∧
    (main_row UNICODE_EMOJI EMOTICONS_EMO english_stopwords lem compound
        "Great video! :)").has_emoticons = 1 ∧
    strContainsSub (main_row UNICODE_EMOJI EMOTICONS_EMO english_stopwords lem compound
        "Great video! :)").cleaned_text ":)" = false :=
  ⟨fun _ => rfl, fun _ => rfl, rfl, rfl⟩

/-- A nonempty emoticon never occurs in the empty string. -/
theorem strContainsSub_empty (k : String) (hk : k ≠ "") :
    strContainsSub "" k = false := by
  cases hdata : k.data with
  | nil => exact absurd (String.ext hdata) hk
  | cons c cs => simp [strContainsSub, hdata, listHasSub, listStartsWith]

/-- The emoji-replacement fold leaves an empty token list empty. -/
theorem emoji_foldl_nil (tbl : List (String × String)) :
    tbl.foldl (fun toks p => replaceFirstToken p.1 (canonicalEmojiName p.2) toks)
      ([] : List String) = [] := by
  induction tbl with
  | nil => rfl
  | cons p rest ih => simpa [replaceFirstToken] using ih

/-- Emoji translation maps the empty string to the empty string, for any
glyph table. -/
theorem translate_emojis_empty (tbl : List (String × String)) :
    translate_emojis tbl "" = "" := by
  unfold translate_emojis
  rw [show word_tokenize "" = [] from rfl, emoji_foldl_nil]
  rfl

/-- Emoticon translation maps the empty string to the empty string, for any
table with nonempty keys. -/
theorem translate_emoticons_empty (tbl : List (String × String))
    (h : ∀ p ∈ tbl, p.1 ≠ "") : translate_emoticons tbl "" = "" := by
  induction tbl with
  | nil => rfl
  | cons p rest ih =>
    simp only [translate_emoticons, List.foldl_cons,
      strContainsSub_empty p.1 (h p (List.mem_cons_self p rest)), Bool.false_eq_true,
      if_false]
    exact ih (fun q hq => h q (List.mem_cons_of_mem p hq))

/-- The emoji presence flag is 0 on the empty string, for any glyph table. -/
theorem has_emojis_empty (tbl : List (String × String)) : has_emojis tbl "" = 0 := by
  simp [has_emojis, show word_tokenize "" = [] from rfl]

/-- The emoticon presence flag is 0 on the empty string, for any table with
nonempty keys. -/
theorem has_emoticons_empty (tbl : List (String × String))
    (h : ∀ p ∈ tbl, p.1 ≠ "") : has_emoticons tbl "" = 0 := by
  unfold has_emoticons
  rw [if_neg]
  intro hany
  obtain ⟨p, hp, hc⟩ := List.any_eq_true.mp hany
  rw [strContainsSub_empty p.1 (h p hp)] at hc
  exact Bool.false_ne_true hc

/-- C5: every pipeline stage is total in the embedding (each is a total
function on strings), the empty string propagates through every stage
unchanged, pure-whitespace and pure-punctuation inputs are handled (stopword
removal of pure whitespace and noise filtering of pure punctuation return
strings), and unterminated markup degrades to literal-text passthrough. -/
theorem c5_stage_totality :
    remove_html_tags "" = "" ∧
    (∀ tbl : List (String × String), translate_emojis tbl "" = "") ∧
    (∀ tbl : List (String × String), (∀ p ∈ tbl, p.1 ≠ "") →
      translate_emoticons tbl "" = "") ∧
    filter_text_noise "" = "" ∧
    str_lower "" = "" ∧
    (∀ stop : List String, filter_stopwords stop "" = "") ∧
    (∀ lem : String → String, lemmatize_text lem "" = "") ∧
    (∀ tbl : List (String × String), has_emojis tbl "" = 0) ∧
    (∀ tbl : List (String × String), (∀ p ∈ tbl, p.1 ≠ "") →
      has_emoticons tbl "" = 0) ∧
    remove_html_tags "a <b" = "a <b" ∧
    filter_stopwords english_stopwords "   " = "" ∧
    filter_text_noise "?! 12" = "     " :=
  ⟨rfl, translate_emojis_empty, translate_emoticons_empty, rfl, rfl,
   fun _ => rfl, fun _ => rfl, has_emojis_empty, has_emoticons_empty,
   by decide, by decide, by decide⟩

/-- Witness for C5: the table-quantified, hypothesis-bearing components
evaluated at the concrete tables of the source. -/
theorem c5_stage_totality_check :
    translate_emoticons EMOTICONS_EMO "" = "" ∧
    has_emoticons EMOTICONS_EMO "" = 0 ∧
    translate_emojis UNICODE_EMOJI "" = "" ∧
    has_emojis UNICODE_EMOJI "" = 0 ∧
    filter_stopwords english_stopwords "" = "" ∧
    lemmatize_text (fun t => t) "" = "" :=
  ⟨c5_stage_totality.2.2.1 EMOTICONS_EMO (by decide),
   c5_stage_totality.2.2.2.2.2.2.2.2.1 EMOTICONS_EMO (by decide),
   c5_stage_totality.2.1 UNICODE_EMOJI,
   c5_stage_totality.2.2.2.2.2.2.2.1 UNICODE_EMOJI,
   c5_stage_totality.2.2.2.2.2.1 english_stopwords,
   c5_stage_totality.2.2.2.2.2.2.1 (fun t => t)⟩

/-- C6: on an empty input text, every derived text column is the empty
string, both presence flags are 0, the sentiment score is 0 and the
sentiment class is neutral (given that the analyzer's compound score of the
empty string is 0, which is VADER's behaviour on empty input). -/
theorem c6_empty_text_row (lem : String → String) (compound : String → ℚ)
    (h0 : compound "" = 0) :
    (main_row UNICODE_EMOJI EMOTICONS_EMO english_stopwords lem compound
        "").cleaned_text = "" ∧
    (main_row UNICODE_EMOJI EMOTICONS_EMO english_stopwords lem compound
        "").filtered_text = "" ∧
    (main_row UNICODE_EMOJI EMOTICONS_EMO english_stopwords lem compound
        "").lemmatized_text = "" ∧
    (main_row UNICODE_EMOJI EMOTICONS_EMO english_stopwords lem compound
        "").has_emojis = 0 ∧
    (main_row UNICODE_EMOJI EMOTICONS_EMO english_stopwords lem compound
        "").has_emoticons = 0 ∧
    (main_row UNICODE_EMOJI EMOTICONS_EMO english_stopwords lem compound
        "").sent_score = 0 ∧
    (main_row UNICODE_EMOJI EMOTICONS_EMO english_stopwords lem compound
        "").sent_class = "neutral" := by
  refine ⟨rfl, rfl, rfl, rfl, rfl, h0, ?_⟩
  show get_sent_label compound "" none = "neutral"
  rw [get_sent_label_none_eq, h0]
  norm_num

/-- Witness for C6: the empty-text row with the identity lemmatizer and the
constant-zero analyzer. -/
theorem c6_empty_text_row_check :
    (main_row UNICODE_EMOJI EMOTICONS_EMO english_stopwords (fun t => t)
        (fun _ => 0) "").cleaned_text = "" ∧
    (main_row UNICODE_EMOJI EMOTICONS_EMO english_stopwords (fun t => t)
        (fun _ => 0) "").filtered_text = "" ∧
    (main_row UNICODE_EMOJI EMOTICONS_EMO english_stopwords (fun t => t)
        (fun _ => 0) "").lemmatized_text = "" ∧
    (main_row UNICODE_EMOJI EMOTICONS_EMO english_stopwords (fun t => t)
        (fun _ => 0) "").has_emojis = 0 ∧
    (main_row UNICODE_EMOJI EMOTICONS_EMO english_stopwords (fun t => t)
        (fun _ => 0) "").has_emoticons = 0 ∧
    (main_row UNICODE_EMOJI EMOTICONS_EMO english_stopwords (fun t => t)
        (fun _ => 0) "").sent_score = 0 ∧
    (main_row UNICODE_EMOJI EMOTICONS_EMO english_stopwords (fun t => t)
        (fun _ => 0) "").sent_class = "neutral" :=
  c6_empty_text_row (fun t => t) (fun _ => 0) rfl

/-- The fold inside `filter_text_noise` maps every accumulated character
through `noiseChar` of the scanned list. -/
theorem filter_noise_foldl (l : List Char) : ∀ acc : List Char,
    List.foldl (fun cur e => if e.isAlpha then cur
      else cur.map (fun c => if c = e then ' ' else c)) acc l =
      acc.map (noiseChar l) := by
  induction l with
  | nil =>
    intro acc
    rw [List.foldl_nil]
    exact (List.map_id'' (fun c => by simp [noiseChar]) acc).symm
  | cons e rest ih =>
    intro acc
    rw [List.foldl_cons]
    by_cases he : e.isAlpha = true
    · rw [if_pos he, ih]
      refine List.map_congr_left (fun c _ => ?_)
      unfold noiseChar
      by_cases hc : c.isAlpha = true
      · rw [if_pos hc, if_pos hc]
      · have hne : (c == e) = false :=
          beq_eq_false_iff_ne.mpr (fun h => hc (h ▸ he))
        rw [if_neg hc, if_neg hc, List.contains_cons, hne, Bool.false_or]
    · rw [if_neg he, ih, List.map_map]
      refine List.map_congr_left (fun c _ => ?_)
      simp only [Function.comp_apply]
      by_cases hce : c = e
      · subst hce
        simp [noiseChar, List.contains_cons, he,
          show (' ' : Char).isAlpha = false from rfl]
      · simp [noiseChar, List.contains_cons, hce]

/-- Normal form of `filter_text_noise`: each character of the text is kept if
alphabetic and becomes a space otherwise. -/
theorem filter_text_noise_eq_map (text : String) :
    filter_text_noise text =
      ⟨text.data.map (fun c => if c.isAlpha then c else ' ')⟩ := by
  unfold filter_text_noise
  rw [filter_noise_foldl]
  refine congrArg String.mk (List.map_congr_left (fun c hc => ?_))
  unfold noiseChar
  by_cases hca : c.isAlpha = true
  · rw [if_pos hca, if_pos hca]
  · rw [if_neg hca, if_neg hca, if_pos (List.elem_eq_true_of_mem hc)]

/-- The `toNat` of a lower-cased basic latin capital. -/
theorem char_toLower_toNat (c : Char) (h1 : 65 ≤ c.toNat) (h2 : c.toNat ≤ 90) :
    (Char.toLower c).toNat = c.toNat + 32 := by
  have hdef : Char.toLower c =
      if c.toNat ≥ 65 ∧ c.toNat ≤ 90 then Char.ofNat (c.toNat + 32) else c := rfl
  rw [hdef, if_pos ⟨h1, h2⟩]
  have hv : (c.toNat + 32).isValidChar := Or.inl (by omega)
  unfold Char.ofNat
  rw [dif_pos hv]
  rfl

/-- Lower-casing a character twice equals lower-casing it once. -/
theorem char_toLower_idem (c : Char) :
    Char.toLower (Char.toLower c) = Char.toLower c := by
  by_cases h : 65 ≤ c.toNat ∧ c.toNat ≤ 90
  · have ht := char_toLower_toNat c h.1 h.2
    have hdef : Char.toLower (Char.toLower c) =
        if (Char.toLower c).toNat ≥ 65 ∧ (Char.toLower c).toNat ≤ 90
        then Char.ofNat ((Char.toLower c).toNat + 32) else Char.toLower c := rfl
    rw [hdef, if_neg (by rw [ht]; omega)]
  · have hdef : Char.toLower c =
        if c.toNat ≥ 65 ∧ c.toNat ≤ 90 then Char.ofNat (c.toNat + 32) else c := rfl
    rw [hdef, if_neg h, hdef, if_neg h]

/-- C8: noise filtering and case folding are idempotent: applying
`filter_text_noise` to its own output is a no-op, and so is lower-casing a
lower-cased string. -/
theorem c8_idempotence (x : String) :
    filter_text_noise (filter_text_noise x) = filter_text_noise x ∧
    str_lower (str_lower x) = str_lower x := by
  constructor
  · rw [filter_text_noise_eq_map x, filter_text_noise_eq_map
      ⟨x.data.map (fun c => if c.isAlpha then c else ' ')⟩]
    refine congrArg String.mk ?_
    show (x.data.map _).map _ = _
    rw [List.map_map]
    refine List.map_congr_left (fun c _ => ?_)
    by_cases hca : c.isAlpha = true
    · simp [Function.comp_apply, hca]
    · simp [Function.comp_apply, hca, show (' ' : Char).isAlpha = false from rfl]
  · show (⟨(x.data.map Char.toLower).map Char.toLower⟩ : String) =
      ⟨x.data.map Char.toLower⟩
    rw [List.map_map]
    exact congrArg String.mk
      (List.map_congr_left (fun c _ => char_toLower_idem c))

/-- Replacing the first occurrence of `a` by `nm` does not increase the count
of any other string `x`. -/
theorem count_replaceFirstToken (a nm x : String) (hx : x ≠ nm) :
    ∀ toks : List String,
      (replaceFirstToken a nm toks).count x ≤ toks.count x := by
  intro toks
  induction toks with
  | nil => exact Nat.le_refl _
  | cons t ts ih =>
    by_cases ht : t = a
    · simp only [replaceFirstToken, if_pos ht]
      rw [List.count_cons, List.count_cons,
        show (nm == x) = false from beq_eq_false_iff_ne.mpr (fun h => hx h.symm)]
      simp only [if_false, Bool.false_eq_true]
      exact Nat.le_add_right _ _
    · simp only [replaceFirstToken, if_neg ht]
      rw [List.count_cons, List.count_cons]
      exact Nat.add_le_add_right ih _

/-- A string that differs from every table key looks up to `none`. -/
theorem tableLookup_eq_none (tbl : List (String × String)) (x : String)
    (h : ∀ q ∈ tbl, q.1 ≠ x) : tableLookup tbl x = none := by
  induction tbl with
  | nil => rfl
  | cons q qs ih =>
    simp only [tableLookup]
    rw [if_neg (h q (List.mem_cons_self q qs))]
    exact ih (fun r hr => h r (List.mem_cons_of_mem q hr))

/-- One step of the emoji fold agrees with the spec-side per-token lookup,
provided the glyph occurs at most once among the tokens and the substituted
name collides with no key. -/
theorem replaceFirst_map_lookup (p : String × String) (rest : List (String × String))
    (hnm : ∀ q ∈ p :: rest, canonicalEmojiName p.2 ≠ q.1) :
    ∀ toks : List String, toks.count p.1 ≤ 1 →
      (replaceFirstToken p.1 (canonicalEmojiName p.2) toks).map (emojiLookupName rest) =
        toks.map (emojiLookupName (p :: rest)) := by
  intro toks
  induction toks with
  | nil => intro _; rfl
  | cons t ts ih =>
    intro hc
    by_cases ht : t = p.1
    · simp only [replaceFirstToken, if_pos ht, List.map_cons]
      have hhead : emojiLookupName rest (canonicalEmojiName p.2) =
          emojiLookupName (p :: rest) t := by
        unfold emojiLookupName
        rw [tableLookup_eq_none rest _ (fun q hq => (hnm q (List.mem_cons_of_mem p hq)).symm),
          show tableLookup (p :: rest) t = some p.2 from by
            simp only [tableLookup]; rw [if_pos ht.symm]]
      have hz : ts.count p.1 = 0 := by
        rw [List.count_cons, show (t == p.1) = true from beq_iff_eq.mpr ht] at hc
        simp at hc
        omega
      have htail : ts.map (emojiLookupName rest) =
          ts.map (emojiLookupName (p :: rest)) := by
        refine List.map_congr_left (fun u hu => ?_)
        have hun : p.1 ≠ u := fun h => (List.count_eq_zero.mp hz) (h ▸ hu)
        unfold emojiLookupName
        rw [show tableLookup (p :: rest) u = tableLookup rest u from by
          simp only [tableLookup]; rw [if_neg hun]]
      rw [hhead, htail]
    · simp only [replaceFirstToken, if_neg ht, List.map_cons]
      have hhead : emojiLookupName rest t = emojiLookupName (p :: rest) t := by
        unfold emojiLookupName
        rw [show tableLookup (p :: rest) t = tableLookup rest t from by
          simp only [tableLookup]; rw [if_neg (fun h => ht h.symm)]]
      have hc' : ts.count p.1 ≤ 1 := by
        rw [List.count_cons,
          show (t == p.1) = false from beq_eq_false_iff_ne.mpr ht] at hc
        simpa using hc
      rw [hhead, ih hc']

/-- The emoji-replacement fold computes the spec-side per-token lookup,
provided no glyph occurs twice among the tokens and no canonical name
collides with a glyph key. -/
theorem emoji_fold (tbl : List (String × String)) :
    ∀ toks : List String,
      (∀ p ∈ tbl, ∀ q ∈ tbl, canonicalEmojiName p.2 ≠ q.1) →
      (∀ p ∈ tbl, toks.count p.1 ≤ 1) →
      tbl.foldl (fun ts p => replaceFirstToken p.1 (canonicalEmojiName p.2) ts) toks =
        toks.map (emojiLookupName tbl) := by
  induction tbl with
  | nil =>
    intro toks _ _
    rw [List.foldl_nil]
    exact (List.map_id'' (fun u => rfl) toks).symm
  | cons p rest ih =>
    intro toks hnames hcount
    rw [List.foldl_cons,
      ih (replaceFirstToken p.1 (canonicalEmojiName p.2) toks)
        (fun a ha b hb => hnames a (List.mem_cons_of_mem p ha) b (List.mem_cons_of_mem p hb))
        (fun q hq => Nat.le_trans
          (count_replaceFirstToken p.1 (canonicalEmojiName p.2) q.1
            (fun h => (hnames p (List.mem_cons_self p rest) q (List.mem_cons_of_mem p hq)) h.symm)
            toks)
          (hcount q (List.mem_cons_of_mem p hq)))]
    exact replaceFirst_map_lookup p rest
      (fun q hq => hnames p (List.mem_cons_self p rest) q hq)
      toks (hcount p (List.mem_cons_self p rest))

/-- C2 amended: `translate_emojis` replaces, per table entry, only the first
whitespace-delimited token exactly equal to that glyph; consequently, on any
input in which no glyph occurs more than once as a token (and with the real
tables, whose canonical names collide with no glyph), it replaces every
matching token as the spec describes, leaves every other token — including
tokens with embedded glyphs — untouched, and re-joins with single spaces. -/
theorem c2_amended_first_token_only (tbl : List (String × String)) (text : String)
    (hnames : ∀ p ∈ tbl, ∀ q ∈ tbl, canonicalEmojiName p.2 ≠ q.1)
    (hcount : ∀ p ∈ tbl, (word_tokenize text).count p.1 ≤ 1) :
    translate_emojis tbl text = spec_translate_emojis tbl text := by
  unfold translate_emojis spec_translate_emojis
  rw [emoji_fold tbl (word_tokenize text) hnames hcount]

/-- Witness for the amended C2: on "so happy 😊" (one glyph occurrence, one
embedded glyph inside "happy😊" left alone in a second input) the source and
spec-side translations agree. -/
theorem c2_amended_first_token_only_check :
    translate_emojis UNICODE_EMOJI "so happy😊 😊" =
      spec_translate_emojis UNICODE_EMOJI "so happy😊 😊" :=
  c2_amended_first_token_only UNICODE_EMOJI "so happy😊 😊" (by decide) (by decide)

/-- If the pattern does not occur in the text, replacement is the identity. -/
theorem replaceAux_no_sub (pat rep : List Char) :
    ∀ l : List Char, listHasSub pat l = false → replaceAux pat rep l 0 = l := by
  intro l
  induction l with
  | nil => intro _; rfl
  | cons c rest ih =>
    intro h
    simp only [listHasSub] at h
    have h1 := (Bool.or_eq_false_iff.mp h).1
    have h2 := (Bool.or_eq_false_iff.mp h).2
    simp only [replaceAux]
    rw [h1]
    simp [ih h2]

/-- String version: `str.replace` on a text not containing the pattern is the
identity, matching the guard in `translate_emoticons`. -/
theorem strReplace_no_occurrence (s pat rep : String)
    (h : strContainsSub s pat = false) : strReplace s pat rep = s := by
  unfold strReplace
  rw [replaceAux_no_sub pat.data rep.data s.data h]

/-- A list is a prefix of itself followed by anything. -/
theorem listStartsWith_append (pat b : List Char) :
    listStartsWith pat (pat ++ b) = true := by
  induction pat with
  | nil => rfl
  | cons p ps ih => simp [listStartsWith, ih]

/-- Skipping exactly the length of a prefix resumes scanning at the rest. -/
theorem replaceAux_skip (pat rep : List Char) :
    ∀ x b : List Char,
      replaceAux pat rep (x ++ b) x.length = replaceAux pat rep b 0 := by
  intro x
  induction x with
  | nil => intro b; rfl
  | cons c xs ih =>
    intro b
    show replaceAux pat rep (c :: (xs ++ b)) (xs.length + 1) = _
    simp only [replaceAux]
    exact ih b

/-- C3 amended: `translate_emoticons` processes the table entries strictly in
the table's iteration order — the first entry is fully replaced (all its
occurrences, the one at the front of the text first) before the remaining
entries see the text — with no longest-match-first reordering, so a shorter
entry iterated earlier can consume part of a longer entry's occurrence. -/
theorem c3_amended_table_order :
    (∀ (p : String × String) (rest : List (String × String)) (text : String),
      translate_emoticons (p :: rest) text =
        translate_emoticons rest (strReplace text p.1 p.2)) ∧
    (∀ pat rep b : String, pat ≠ "" →
      strReplace (pat ++ b) pat rep = rep ++ strReplace b pat rep) := by
  constructor
  · intro p rest text
    unfold translate_emoticons
    rw [List.foldl_cons]
    by_cases hc : strContainsSub text p.1 = true
    · rw [if_pos hc]
    · have hcf : strContainsSub text p.1 = false := by
        revert hc; cases strContainsSub text p.1 <;> simp
      rw [if_neg hc, strReplace_no_occurrence text p.1 p.2 hcf]
  · intro pat rep b hpat
    obtain ⟨c, cs, hdata⟩ : ∃ c cs, pat.data = c :: cs := by
      cases hd : pat.data with
      | nil => exact absurd (String.ext hd) hpat
      | cons c cs => exact ⟨c, cs, rfl⟩
    refine String.ext ?_
    show replaceAux pat.data rep.data (pat.data ++ b.data) 0 =
      rep.data ++ replaceAux pat.data rep.data b.data 0
    rw [hdata]
    have hsw : listStartsWith (c :: cs) (c :: (cs ++ b.data)) = true := by
      simpa using listStartsWith_append (c :: cs) b.data
    show replaceAux (c :: cs) rep.data (c :: (cs ++ b.data)) 0 = _
    simp only [replaceAux]
    rw [if_pos (by rw [hsw]; rfl)]
    rw [show (c :: cs).length - 1 = cs.length from by simp]
    rw [replaceAux_skip (c :: cs) rep.data cs b.data]

/-- Witness for the amended C3: the head entry of a concrete table is
replaced first (all occurrences), and replacement consumes a leading
occurrence of the pattern whole. -/
theorem c3_amended_table_order_check :
    (translate_emoticons [(":)", "smiley"), (":(", "sad")] "hey :)" =
      translate_emoticons [(":(", "sad")] (strReplace "hey :)" ":)" "smiley")) ∧
    (strReplace (":)" ++ " x") ":)" "smiley" = "smiley" ++ strReplace " x" ":)" "smiley") :=
  ⟨c3_amended_table_order.1 (":)", "smiley") [(":(", "sad")] "hey :)",
   c3_amended_table_order.2 ":)" "smiley" " x" (by decide)⟩

end DataPreparation
